import Mathlib

/-!
Verification of the dotclaw concurrency and resource-management core:
the sandbox-side process session registry (`container/agent-runner/src/process-registry.ts`),
the sandbox worker loop (agent daemon), the host-side `saveJson` exchange writer
(`src/utils.ts`), the `executeAgentRun` coordinator (`agent-execution.ts`) and its
webhook caller (`webhook.ts`).

JavaScript strings are modelled as lists of UTF-16 code units (natural numbers
below 0x10000, i.e. the Basic Multilingual Plane; surrogate pairs are not
modelled).  `Buffer.byteLength(s, 'utf-8')` is the sum of the per-code-unit
UTF-8 widths, and `String.prototype.slice` counts code units, exactly as in
the source.
-/

namespace DotClaw

/-- A JavaScript string: a list of UTF-16 code units (BMP code points). -/
abbrev JSStr := List Nat

/-- UTF-8 byte width of one BMP code unit, as used by `Buffer.byteLength(·, 'utf-8')`. -/
def byteWidth (c : Nat) : Nat :=
  if c < 0x80 then 1 else if c < 0x800 then 2 else 3

/-- `Buffer.byteLength(s, 'utf-8')` for a BMP string. -/
def byteLength (s : JSStr) : Nat :=
  (s.map byteWidth).sum

/-- Embed a Lean string literal (ASCII in this file) as a JS string. -/
def jsOf (s : String) : JSStr :=
  s.data.map Char.toNat

/-! ## Process session registry (`process-registry.ts`) -/

/-- `ProcessConfig` from `process-registry.ts`. -/
structure ProcessConfig where
  maxSessions : Nat
  maxOutputBytes : Nat
  defaultTimeoutMs : Nat
deriving Repr, DecidableEq

/-- `TAIL_LENGTH = 500` from `process-registry.ts`. -/
def TAIL_LENGTH : Nat := 500

/-- The truncation marker appended once the byte cap is hit (`'\n[OUTPUT TRUNCATED]'`). -/
def TRUNCATION_MARKER : JSStr := jsOf "\n[OUTPUT TRUNCATED]"

/-- The timeout marker appended by the auto-kill timer (`'\n[PROCESS TIMED OUT]'`). -/
def TIMEOUT_MARKER : JSStr := jsOf "\n[PROCESS TIMED OUT]"

/-- `InternalSession` from `process-registry.ts`.  The OS-level `process` handle is
represented by the observable bits the registry reads from it (`pid`,
`stdinWritable`); `timeoutTimer` records whether a timeout timer is pending. -/
structure InternalSession where
  id : String
  command : JSStr
  pid : Nat
  startedAt : Nat
  cwd : JSStr
  stdout : JSStr
  tail : JSStr
  exited : Bool
  exitCode : Option Int
  exitSignal : Option String
  truncated : Bool
  pollCursor : Nat
  timeoutTimer : Bool
  stdinWritable : Bool
deriving Repr, DecidableEq

/-- `updateTail` from `process-registry.ts`: keep the last `TAIL_LENGTH` code units. -/
def updateTail (s : InternalSession) : InternalSession :=
  if s.stdout.length ≤ TAIL_LENGTH then
    { s with tail := s.stdout }
  else
    { s with tail := s.stdout.drop (s.stdout.length - TAIL_LENGTH) }

/-- The `append` closure from `startProcess` (process-registry.ts lines 97-114).
Note the source computes `remaining` in BYTES but slices the chunk by CODE UNITS
(`text.slice(0, remaining)`); `List.take remaining` reproduces that exactly. -/
def append (cfg : ProcessConfig) (s : InternalSession) (chunk : JSStr) : InternalSession :=
  if s.truncated then s
  else
    let currentBytes := byteLength s.stdout
    let chunkBytes := byteLength chunk
    if cfg.maxOutputBytes < currentBytes + chunkBytes then
      let remaining := cfg.maxOutputBytes - currentBytes
      let s1 := if 0 < remaining then { s with stdout := s.stdout ++ chunk.take remaining } else s
      updateTail { s1 with truncated := true, stdout := s1.stdout ++ TRUNCATION_MARKER }
    else
      updateTail { s with stdout := s.stdout ++ chunk }

/-- The `child.on('close', ...)` callback: record exit status, clear the timer. -/
def closeEvt (s : InternalSession) (code : Option Int) (signal : Option String) : InternalSession :=
  { s with exited := true, exitCode := code, exitSignal := signal, timeoutTimer := false }

/-- The `child.on('error', ...)` callback: mark exited, append an error marker
(unbounded, bypassing the byte cap), clear the timer. -/
def errorEvt (s : InternalSession) (msg : JSStr) : InternalSession :=
  updateTail { s with
    exited := true,
    exitCode := some 1,
    stdout := s.stdout ++ jsOf "\n[PROCESS ERROR: " ++ msg ++ jsOf "]",
    timeoutTimer := false }

/-- The timeout timer callback: if the process has not exited, (force-kill it and)
append the timeout marker, bypassing the byte cap. -/
def timeoutEvt (s : InternalSession) : InternalSession :=
  if s.exited then { s with timeoutTimer := false }
  else updateTail { s with stdout := s.stdout ++ TIMEOUT_MARKER, timeoutTimer := false }

/-- The registry's `sessions` map: an insertion-ordered association list,
like a JavaScript `Map`. -/
abbrev Registry := List (String × InternalSession)

/-- `sessions.get(id)`. -/
def lookupSession (reg : Registry) (id : String) : Option InternalSession :=
  (reg.find? (fun p => p.1 == id)).map Prod.snd

/-- `sessions.set(id, s)`: replace in place if the key is present, else append. -/
def mapSet (reg : Registry) (id : String) (s : InternalSession) : Registry :=
  if reg.any (fun p => p.1 == id) then
    reg.map (fun p => if p.1 == id then (id, s) else p)
  else
    reg ++ [(id, s)]

/-- `sessions.delete(id)`. -/
def mapDelete (reg : Registry) (id : String) : Registry :=
  reg.filter (fun p => !(p.1 == id))

/-- The registry's error surface. -/
inductive RegError where
  | capacityExceeded
  | sessionNotFound
  | sessionExited
  | stdinNotWritable
deriving Repr, DecidableEq

/-- The fresh session record built by `startProcess`.  `opts?.cwd || '/workspace/group'`
and `opts?.timeoutMs || config.defaultTimeoutMs` use JS truthiness: an absent or
empty cwd and an absent or zero timeout fall back to the defaults. -/
def newSession (cfg : ProcessConfig) (id : String) (command : JSStr) (pid now : Nat)
    (cwdOpt : Option JSStr) (timeoutMsOpt : Option Nat) : InternalSession :=
  let cwd := match cwdOpt with
    | some c => if c = [] then jsOf "/workspace/group" else c
    | none => jsOf "/workspace/group"
  let timeoutMs := match timeoutMsOpt with
    | some t => if t = 0 then cfg.defaultTimeoutMs else t
    | none => cfg.defaultTimeoutMs
  { id := id, command := command, pid := pid, startedAt := now, cwd := cwd,
    stdout := [], tail := [], exited := false, exitCode := none, exitSignal := none,
    truncated := false, pollCursor := 0, timeoutTimer := 0 < timeoutMs,
    stdinWritable := true }

/-- `startProcess` (process-registry.ts lines 59-155): capacity check, then spawn
and insert the fresh session.  The fresh `id` and the OS-chosen `pid` and clock
are parameters of the model. -/
def startProcess (cfg : ProcessConfig) (reg : Registry) (id : String) (command : JSStr)
    (pid now : Nat) (cwdOpt : Option JSStr) (timeoutMsOpt : Option Nat) :
    Except RegError (Registry × String × Nat) :=
  if cfg.maxSessions ≤ reg.length then
    .error .capacityExceeded
  else
    .ok (mapSet reg id (newSession cfg id command pid now cwdOpt timeoutMsOpt), id, pid)

/-- Result record of `pollSession`. -/
structure PollResult where
  newOutput : JSStr
  exited : Bool
  exitCode : Option Int
deriving Repr, DecidableEq

/-- `pollSession` (process-registry.ts lines 184-190): return the output past the
cursor, advance the cursor to the buffer end. -/
def pollSession (reg : Registry) (id : String) : Except RegError (PollResult × Registry) :=
  match lookupSession reg id with
  | none => .error .sessionNotFound
  | some s =>
    let newOutput := s.stdout.drop s.pollCursor
    .ok (⟨newOutput, s.exited, s.exitCode⟩,
      mapSet reg id { s with pollCursor := s.stdout.length })

/-- `writeToSession` (process-registry.ts lines 204-210); the actual stdin write is
an external effect, the registry state is untouched. -/
def writeToSession (reg : Registry) (id : String) : Except RegError Unit :=
  match lookupSession reg id with
  | none => .error .sessionNotFound
  | some s =>
    if s.exited then .error .sessionExited
    else if ¬s.stdinWritable then .error .stdinNotWritable
    else .ok ()

/-- A signal the registry attempts to deliver. -/
inductive SigTarget where
  | group (pid : Nat) (sig : String)
  | child (pid : Nat) (sig : String)
deriving Repr, DecidableEq

/-- `killSession` (process-registry.ts lines 212-222): no-op on an exited session;
otherwise signal the process group, falling back to the tracked child when
group-signalling fails (`groupKillOk = false`).  `signal || 'SIGTERM'` uses JS
truthiness.  The session record is never modified. -/
def killSession (reg : Registry) (id : String) (signal : Option String)
    (groupKillOk : Bool) : Except RegError (List SigTarget) :=
  match lookupSession reg id with
  | none => .error .sessionNotFound
  | some s =>
    if s.exited then .ok []
    else
      let sig := match signal with
        | some g => if g = "" then "SIGTERM" else g
        | none => "SIGTERM"
      if s.pid = 0 then .ok []
      else if groupKillOk then .ok [.group s.pid sig]
      else .ok [.child s.pid sig]

/-- `removeSession` (process-registry.ts lines 224-234): force-kill if still running
(an external effect), cancel the timer, delete the record. -/
def removeSession (reg : Registry) (id : String) : Except RegError Registry :=
  match lookupSession reg id with
  | none => .error .sessionNotFound
  | some _ => .ok (mapDelete reg id)

/-- One observable event acting on the registry: a public operation or one of the
callbacks installed by `startProcess`.  Callbacks address a session by id; once
the record has been deleted they mutate an unreachable object, i.e. the registry
is unchanged. -/
inductive RegOp where
  | start (id : String) (command : JSStr) (pid now : Nat)
      (cwdOpt : Option JSStr) (timeoutMsOpt : Option Nat)
  | chunk (id : String) (data : JSStr)
  | closeE (id : String) (code : Option Int) (sig : Option String)
  | errorE (id : String) (msg : JSStr)
  | timeoutE (id : String)
  | poll (id : String)
  | write (id : String)
  | kill (id : String) (sig : Option String)
  | remove (id : String)
deriving Repr, DecidableEq

/-- Update the session stored under `id`, if present. -/
def updateAt (reg : Registry) (id : String) (f : InternalSession → InternalSession) : Registry :=
  match lookupSession reg id with
  | none => reg
  | some s => mapSet reg id (f s)

/-- The registry-state effect of one event.  A thrown registry error leaves the
state unchanged (every `throw` in the source happens before any mutation). -/
def step (cfg : ProcessConfig) (reg : Registry) (op : RegOp) : Registry :=
  match op with
  | .start id command pid now cwdOpt timeoutMsOpt =>
    match startProcess cfg reg id command pid now cwdOpt timeoutMsOpt with
    | .ok (reg', _, _) => reg'
    | .error _ => reg
  | .chunk id data => updateAt reg id (fun s => append cfg s data)
  | .closeE id code sig => updateAt reg id (fun s => closeEvt s code sig)
  | .errorE id msg => updateAt reg id (fun s => errorEvt s msg)
  | .timeoutE id => updateAt reg id timeoutEvt
  | .poll id =>
    match pollSession reg id with
    | .ok (_, reg') => reg'
    | .error _ => reg
  | .write _ => reg
  | .kill _ _ => reg
  | .remove id =>
    match removeSession reg id with
    | .ok reg' => reg'
    | .error _ => reg

/-- Run a sequence of events from the empty registry (daemon start). -/
def runOps (cfg : ProcessConfig) (ops : List RegOp) : Registry :=
  ops.foldl (step cfg) []

/-- Events that stay inside the output-bounding discipline: output chunks made of
single-byte code units, and no spawn-error or timeout marker append. -/
def SafeOp (op : RegOp) : Prop :=
  match op with
  | .chunk _ data => ∀ c ∈ data, byteWidth c = 1
  | .errorE _ _ => False
  | .timeoutE _ => False
  | _ => True

instance (op : RegOp) : Decidable (SafeOp op) := by
  unfold SafeOp
  cases op <;> infer_instance

/-! ## Worker loop and file exchange (agent daemon + `src/utils.ts`) -/

/-- A JSON value, the payload universe of the file exchange. -/
inductive JValue where
  | jnull
  | jbool (b : Bool)
  | jnum (n : Int)
  | jstr (s : String)
  | jarr (xs : List JValue)
  | jobj (fields : List (String × JValue))
deriving Repr, Inhabited

/-- Property lookup on a JSON object field list (first binding wins). -/
def lookupField (fields : List (String × JValue)) (key : String) : Option JValue :=
  (fields.find? (fun p => p.1 == key)).map Prod.snd

/-- JavaScript truthiness of a JSON value. -/
def truthy (v : JValue) : Bool :=
  match v with
  | .jnull => false
  | .jbool b => b
  | .jnum n => n ≠ 0
  | .jstr s => s ≠ ""
  | .jarr _ => true
  | .jobj _ => true

/-- `isContainerInput` (agent daemon): the value is an object whose `prompt`,
`groupFolder`, `chatJid` fields are strings and whose `isMain` field is a
boolean.  JS arrays have `typeof === 'object'` but their property lookups come
back `undefined`, so they fail the field checks. -/
def isContainerInput (v : JValue) : Bool :=
  match v with
  | .jobj fields =>
    (match lookupField fields "prompt" with | some (.jstr _) => true | _ => false)
    && (match lookupField fields "groupFolder" with | some (.jstr _) => true | _ => false)
    && (match lookupField fields "chatJid" with | some (.jstr _) => true | _ => false)
    && (match lookupField fields "isMain" with | some (.jbool _) => true | _ => false)
  | _ => false

/-- A filesystem operation, as issued by the host or the worker loop. -/
inductive FsOp where
  | writeFile (path : String) (content : JValue)
  | rename (src : String) (dst : String)
  | unlink (path : String)
deriving Repr

/-- `REQUESTS_DIR` of the agent daemon. -/
def REQUESTS_DIR : String := "/workspace/ipc/agent_requests"

/-- `RESPONSES_DIR` of the agent daemon. -/
def RESPONSES_DIR : String := "/workspace/ipc/agent_responses"

/-- `HEARTBEAT_FILE` of the agent daemon. -/
def HEARTBEAT_FILE : String := "/workspace/ipc/heartbeat"

/-- Path of a request file with the given name stem. -/
def reqPath (stem : String) : String :=
  REQUESTS_DIR ++ "/" ++ stem ++ ".json"

/-- Path of the response file for a request id. -/
def respPath (rid : String) : String :=
  RESPONSES_DIR ++ "/" ++ rid ++ ".json"

/-- The structured error response the worker loop writes on any failure:
`{status: 'error', result: null, error: message}`. -/
def errorResponse (msg : String) : JValue :=
  .jobj [("status", .jstr "error"), ("result", .jnull), ("error", .jstr msg)]

/-- `saveJson` (src/utils.ts lines 15-23): write the payload to a dot-prefixed
temporary name in the same directory, then rename it onto the final path. -/
def saveJsonTempName (dir base : String) (pid now : Nat) : String :=
  dir ++ "/." ++ base ++ "." ++ toString pid ++ "." ++ toString now ++ ".tmp"

/-- The filesystem operations `saveJson` performs for final path `dir ++ "/" ++ base`. -/
def saveJson (dir base : String) (pid now : Nat) (data : JValue) : List FsOp :=
  [.writeFile (saveJsonTempName dir base pid now) data,
   .rename (saveJsonTempName dir base pid now) (dir ++ "/" ++ base)]

/-- `requestId = payload.id || requestId`: a truthy (non-empty) string `id` field
replaces the filename-derived id.  (The daemon's cast types `id` as an optional
string.) -/
def requestIdOf (stem : String) (payload : JValue) : String :=
  match payload with
  | .jobj fields =>
    match lookupField fields "id" with
    | some (.jstr s) => if s = "" then stem else s
    | _ => stem
  | _ => stem

/-- `input = payload.input || payload`. -/
def inputOf (payload : JValue) : JValue :=
  match payload with
  | .jobj fields =>
    match lookupField fields "input" with
    | some v => if truthy v then v else payload
    | none => payload
  | _ => payload

/-- A request file as the worker sees it: name stem plus parse result
(`none` = unreadable or invalid JSON). -/
abbrev RequestFile := String × Option JValue

/-- Processing of one request file by `processRequests` (agent daemon): returns
the response id, the response content, and the filesystem operations issued, in
order.  `runAgent` is the out-of-scope `runAgentOnce`; `.error` is a thrown
execution failure. -/
def processOne (runAgent : JValue → Except String JValue) (file : RequestFile) :
    String × JValue × List FsOp :=
  let stem := file.1
  match file.2 with
  | none =>
    (stem, errorResponse "Invalid JSON",
     [.writeFile (respPath stem) (errorResponse "Invalid JSON"), .unlink (reqPath stem)])
  | some payload =>
    let rid := requestIdOf stem payload
    let input := inputOf payload
    if isContainerInput input then
      match runAgent input with
      | .ok out =>
        (rid, out, [.writeFile (respPath rid) out, .unlink (reqPath stem)])
      | .error e =>
        (rid, errorResponse e,
         [.writeFile (respPath rid) (errorResponse e), .unlink (reqPath stem)])
    else
      (rid, errorResponse "Invalid agent request payload",
       [.writeFile (respPath rid) (errorResponse "Invalid agent request payload"),
        .unlink (reqPath stem)])

/-- The response area, keyed by request id (overwrite on rewrite). -/
abbrev ResponseDir := List (String × JValue)

/-- Write (or overwrite) a response file. -/
def setResponse (dir : ResponseDir) (rid : String) (content : JValue) : ResponseDir :=
  if dir.any (fun p => p.1 == rid) then
    dir.map (fun p => if p.1 == rid then (rid, content) else p)
  else
    dir ++ [(rid, content)]

/-- The exchange-area state the worker loop owns. -/
structure WorkerState where
  requests : List RequestFile
  responses : ResponseDir
deriving Repr

/-- `processRequests` (agent daemon): drain every pending request file — each one
gets a response and is unlinked, a failure of one file never aborts the loop.
Returns the new state and the filesystem operations issued, in order. -/
def processRequests (runAgent : JValue → Except String JValue) (st : WorkerState) :
    WorkerState × List FsOp :=
  let results := st.requests.map (processOne runAgent)
  (⟨[], results.foldl (fun acc r => setResponse acc r.1 r.2.1) st.responses⟩,
   results.flatMap (fun r => r.2.2))

/-- One observable event of a worker-loop cycle. -/
inductive CycleEvent where
  | fileOp (op : FsOp)
  | sleepFor (ms : Nat)
deriving Repr

/-- One cycle of the daemon `loop()`: write the heartbeat at the START of the
iteration, then drain the requests, then sleep `pollMs`. -/
def loopCycle (runAgent : JValue → Except String JValue) (st : WorkerState)
    (now pollMs : Nat) : WorkerState × List CycleEvent :=
  let hb := CycleEvent.fileOp (.writeFile HEARTBEAT_FILE (.jnum now))
  let drained := processRequests runAgent st
  (drained.1, hb :: drained.2.map .fileOp ++ [.sleepFor pollMs])

/-! ## Execution coordinator (`agent-execution.ts`) and webhook caller (`webhook.ts`) -/

/-- One event of `executeAgentRun`'s admission-control protocol. -/
inductive ExecEvent where
  | acquireSemaphore
  | releaseSemaphore
  | acquireLock (key : String)
  | releaseLock (key : String)
  | runContainer
deriving Repr, DecidableEq

/-- Modelled from the spec: `withGroupLock(key, op)` (locks.ts is not in the
corpus) is scoped acquisition with guaranteed release — the event trace brackets
the operation's trace with acquire/release of the keyed lock. -/
def withGroupLock (key : String) (opTrace : List ExecEvent) : List ExecEvent :=
  .acquireLock key :: opTrace ++ [.releaseLock key]

/-- Modelled from the spec: `runWithAgentSemaphore(op)` (agent-semaphore.ts is not
in the corpus) brackets the operation's trace with acquire/release of one global
permit. -/
def runWithAgentSemaphore (opTrace : List ExecEvent) : List ExecEvent :=
  .acquireSemaphore :: opTrace ++ [.releaseSemaphore]

/-- The admission-control trace of `executeAgentRun` (agent-execution.ts lines
141-145): the semaphore wraps the OUTSIDE, the group lock is taken inside it:
`runWithAgentSemaphore(() => useGroupLock ? withGroupLock(folder, run) : run())`. -/
def executeAgentRunTrace (useGroupLock : Bool) (groupFolder : String) : List ExecEvent :=
  runWithAgentSemaphore
    (if useGroupLock then withGroupLock groupFolder [.runContainer] else [.runContainer])

/-- The context built by `buildAgentContext` (only its identity matters here). -/
structure AgentContext where
  groupFolder : String
deriving Repr, DecidableEq

/-- The container output (only the fields the callers inspect). -/
structure ContainerOutput where
  result : String
  newSessionId : Option String
deriving Repr, DecidableEq

/-- How one `executeAgentRun` call can fail: a plain error escaping from outside
the guarded container-run segment (e.g. `buildAgentContext`), or an
`AgentExecutionError` wrapping a guarded failure and carrying the context. -/
inductive ExecError where
  | plain (msg : String)
  | agentExecutionError (msg : String) (context : AgentContext)
deriving Repr, DecidableEq

/-- The outcome environment of one call: what `buildAgentContext` and the
semaphore/lock/container segment would produce (a `.error` is a throw; a
container-run timeout is a `.error` of the run). -/
structure ExecEnv where
  contextBuild : Except String AgentContext
  containerRun : Except String ContainerOutput
deriving Repr

/-- `executeAgentRun` (agent-execution.ts lines 105-156) as a map from the
environment to its result: `buildAgentContext` runs OUTSIDE the try/catch, so
its failure escapes as a plain error; only the semaphore/lock/container segment
is caught and rethrown as `AgentExecutionError` carrying the context. -/
def executeAgentRun (env : ExecEnv) : Except ExecError (ContainerOutput × AgentContext) :=
  match env.contextBuild with
  | .error e => .error (.plain e)
  | .ok context =>
    match env.containerRun with
    | .error e => .error (.agentExecutionError e context)
    | .ok output => .ok (output, context)

/-- How many times the webhook handler (webhook.ts lines 106-155) invokes
`recordAgentTelemetry` for one `executeAgentRun` call: once on success, once on
a caught `AgentExecutionError`, and not at all on any other error. -/
def webhookTelemetryCalls (env : ExecEnv) : Nat :=
  match executeAgentRun env with
  | .ok _ => 1
  | .error (.agentExecutionError _ _) => 1
  | .error (.plain _) => 0

/-- Does `contextBuild` (the segment before the guarded container run) succeed? -/
def contextBuildSucceeds (env : ExecEnv) : Bool :=
  match env.contextBuild with
  | .ok _ => true
  | .error _ => false

/-! ## Observation helpers for trace statements -/

/-- Recognize the semaphore-acquisition event. -/
def isAcquireSemaphoreEvt (e : ExecEvent) : Bool :=
  match e with
  | .acquireSemaphore => true
  | _ => false

/-- Recognize the semaphore-release event. -/
def isReleaseSemaphoreEvt (e : ExecEvent) : Bool :=
  match e with
  | .releaseSemaphore => true
  | _ => false

/-- Recognize the acquisition of the group lock for `key`. -/
def isAcquireLockEvt (key : String) (e : ExecEvent) : Bool :=
  match e with
  | .acquireLock k => k == key
  | _ => false

/-- Recognize the release of the group lock for `key`. -/
def isReleaseLockEvt (key : String) (e : ExecEvent) : Bool :=
  match e with
  | .releaseLock k => k == key
  | _ => false

/-- The ordering the spec asserts for C1: group lock acquired strictly before the
semaphore permit, permit released strictly before the lock. -/
def lockBeforeSemaphore (t : List ExecEvent) (key : String) : Prop :=
  t.findIdx (isAcquireLockEvt key) < t.findIdx isAcquireSemaphoreEvt ∧
  t.findIdx isReleaseSemaphoreEvt < t.findIdx (isReleaseLockEvt key)

/-- The ordering the code actually implements: semaphore permit acquired strictly
before the group lock, lock released strictly before the permit. -/
def semaphoreBeforeLock (t : List ExecEvent) (key : String) : Prop :=
  t.findIdx isAcquireSemaphoreEvt < t.findIdx (isAcquireLockEvt key) ∧
  t.findIdx (isReleaseLockEvt key) < t.findIdx isReleaseSemaphoreEvt

/-- `writeHeartbeat` (agent daemon lines 278-284): overwrite the heartbeat file
with the current epoch-millisecond timestamp. -/
def writeHeartbeat (now : Nat) : FsOp :=
  .writeFile HEARTBEAT_FILE (.jnum now)

/-- Recognize a heartbeat overwrite in a cycle trace. -/
def isHeartbeatWriteEvt (e : CycleEvent) : Bool :=
  match e with
  | .fileOp (.writeFile p _) => p == HEARTBEAT_FILE
  | _ => false

/-- Recognize a request-draining filesystem operation in a cycle trace
(anything touching the exchange area rather than the heartbeat file). -/
def isDrainFileOpEvt (e : CycleEvent) : Bool :=
  match e with
  | .fileOp (.writeFile p _) => p != HEARTBEAT_FILE
  | .fileOp (.rename _ _) => true
  | .fileOp (.unlink _) => true
  | .sleepFor _ => false

/-- Recognize the end-of-cycle sleep. -/
def isSleepEvt (e : CycleEvent) : Bool :=
  match e with
  | .sleepFor _ => true
  | _ => false

/-- A run-agent stub returning a fixed output, used for concrete scenarios. -/
def okRunAgent (out : JValue) : JValue → Except String JValue :=
  fun _ => .ok out

/-- A well-shaped request payload, used for concrete scenarios. -/
def sampleRequest : JValue :=
  .jobj [("prompt", .jstr "hi"), ("groupFolder", .jstr "g"),
         ("chatJid", .jstr "j"), ("isMain", .jbool true)]

/-- A concrete registry configuration used in witness scenarios. -/
def cfgW : ProcessConfig := ⟨4, 64, 100⟩

/-- A concrete session that has already exited (close callback delivered). -/
def exitedSess : InternalSession :=
  closeEvt (newSession cfgW "e" (jsOf "sleep 5") 9 0 none none) (some 0) none

/-- A concrete registry holding the exited session. -/
def regExited : Registry := [("e", exitedSess)]

/-- The spec's capacity scenario: two session slots. -/
def cfgTwo : ProcessConfig := ⟨2, 1024, 100⟩

/-- First long-running session of the capacity scenario. -/
def sessA : InternalSession := newSession cfgTwo "a" (jsOf "sleep 30") 1 0 none none

/-- Second long-running session of the capacity scenario. -/
def sessB : InternalSession := newSession cfgTwo "b" (jsOf "sleep 30") 2 0 none none

/-- Registry with both capacity-scenario slots occupied. -/
def regAB : Registry := [("a", sessA), ("b", sessB)]

/-- An exited session with buffered output, for the poll scenario. -/
def polledSess : InternalSession :=
  closeEvt (append cfgW (newSession cfgW "p" (jsOf "echo hi") 3 0 none none) (jsOf "hi"))
    (some 0) none

/-- Registry holding the exited poll-scenario session. -/
def regPoll : Registry := [("p", polledSess)]

/-- Deliver a sequence of output chunks to a session (successive `data` events). -/
def deliverChunks (cfg : ProcessConfig) (s : InternalSession) (chunks : List JSStr) :
    InternalSession :=
  chunks.foldl (append cfg) s

/-- Truncation-scenario config: a 4-byte output cap. -/
def cfgC3 : ProcessConfig := ⟨16, 4, 1000⟩

/-- A freshly started session of the truncation scenario. -/
def freshSess : InternalSession := newSession cfgC3 "s" (jsOf "cmd") 7 0 none none

/-- A chunk of three 2-byte code units (0xE9 = é): 3 code units, 6 UTF-8 bytes. -/
def chunkC3 : JSStr := [233, 233, 233]

/-- The truncation-scenario session after an oversized ASCII chunk. -/
def truncSess : InternalSession := append cfgC3 freshSess (jsOf "aaaaaa")

/-- Byte size of a resident session's buffer, for concrete observations. -/
def stdoutBytesAt (reg : Registry) (id : String) : Option Nat :=
  (lookupSession reg id).map (fun s => byteLength s.stdout)

/-- Invariant-violating scenario: one slot, 4-byte cap, an oversized chunk and
then the timeout timer firing. -/
def cfgC5 : ProcessConfig := ⟨1, 4, 5⟩

/-- Event sequence of the invariant-violating scenario. -/
def opsC5 : List RegOp :=
  [.start "s" (jsOf "c") 3 0 none none, .chunk "s" (jsOf "aaaaaa"), .timeoutE "s"]

/-- A well-behaved event sequence: a start, a small ASCII chunk, a poll. -/
def opsSafe : List RegOp :=
  [.start "a" (jsOf "x") 1 0 none none, .chunk "a" (jsOf "hi"), .poll "a"]

/-- The single resident entry produced by the well-behaved sequence. -/
def entrySafe : String × InternalSession :=
  (runOps cfgW opsSafe).getD 0 ("", freshSess)

/-- Recognize a direct `writeFile` of the given final path. -/
def isDirectWrite (path : String) (op : FsOp) : Bool :=
  match op with
  | .writeFile q _ => q == path
  | _ => false

/-- Recognize a rename whose destination is the given final path. -/
def isRenameOnto (path : String) (op : FsOp) : Bool :=
  match op with
  | .rename _ dst => dst == path
  | _ => false

/-- Is a response file recorded under the given request id? -/
def hasResponseFor (dir : ResponseDir) (rid : String) : Bool :=
  dir.any (fun p => p.1 == rid)

end DotClaw

namespace DotClaw

/-! ## Claim C1 -/

/-- Claim C1, as stated, is false: in `executeAgentRun` the group lock is NOT
acquired before the global semaphore permit.  On the concrete trace for group
`"group"`, the semaphore acquisition (index 0) precedes the lock acquisition
(index 1), and the lock release precedes the semaphore release. -/
theorem C1_counterexample :
    ¬ lockBeforeSemaphore (executeAgentRunTrace true "group") "group" := by
  unfold lockBeforeSemaphore
  decide

/-- Claim C1 amended: the composition order in `executeAgentRun` is
semaphore → lock → run → release lock → release semaphore, so a caller queued
waiting for a busy group's lock already holds a global semaphore permit. -/
theorem C1_amended_order (key : String) :
    executeAgentRunTrace true key =
      [.acquireSemaphore, .acquireLock key, .runContainer,
       .releaseLock key, .releaseSemaphore] ∧
    semaphoreBeforeLock (executeAgentRunTrace true key) key := by
  refine ⟨rfl, ?_, ?_⟩ <;>
    simp [executeAgentRunTrace, runWithAgentSemaphore, withGroupLock,
      semaphoreBeforeLock, List.findIdx_cons, isAcquireSemaphoreEvt,
      isAcquireLockEvt, isReleaseLockEvt, isReleaseSemaphoreEvt]

/-! ## Claim C2 -/

/-- Claim C2, as stated, is false: when `executeAgentRun` raises an error thrown
before the guarded container-run segment (here: `buildAgentContext` fails), the
webhook caller invokes the telemetry finalizer zero times, not exactly once —
the catch block only records telemetry for `AgentExecutionError`. -/
theorem C2_counterexample :
    webhookTelemetryCalls ⟨.error "recall backend unavailable", .ok ⟨"ok", none⟩⟩ ≠ 1 := by
  decide

/-- Claim C2 amended: the webhook caller invokes the telemetry finalizer at most
once per `executeAgentRun` call, and exactly once precisely when the
context-building segment succeeds (covering success, guarded container-run
errors and timeouts); when an error is thrown before or outside the guarded
segment the finalizer is not invoked at all. -/
theorem C2_amended_telemetry (env : ExecEnv) :
    webhookTelemetryCalls env ≤ 1 ∧
    (webhookTelemetryCalls env = 1 ↔ contextBuildSucceeds env = true) := by
  obtain ⟨hc, hr⟩ := env
  cases hc <;> cases hr <;>
    simp [webhookTelemetryCalls, executeAgentRun, contextBuildSucceeds]

/-! ## Claim C9 -/

/-- Claim C9, as stated, is false: on a cycle with one pending request, the
heartbeat overwrite is the FIRST event of the cycle trace (index 0), occurring
before the request-draining operations (first at index 1), not after them. -/
theorem C9_counterexample :
    ¬ ((loopCycle (okRunAgent (.jstr "done")) ⟨[("r1", some sampleRequest)], []⟩
          1000 1500).2.findIdx isDrainFileOpEvt <
       (loopCycle (okRunAgent (.jstr "done")) ⟨[("r1", some sampleRequest)], []⟩
          1000 1500).2.findIdx isHeartbeatWriteEvt) := by
  decide

/-- Claim C9 amended: in every cycle of the worker loop the heartbeat timestamp
is overwritten at the START of the cycle, before any pending request file is
drained; the drain operations follow it and the fixed-interval sleep comes
last. -/
theorem C9_amended_heartbeat (runAgent : JValue → Except String JValue)
    (st : WorkerState) (now pollMs : Nat) :
    (loopCycle runAgent st now pollMs).2 =
      CycleEvent.fileOp (writeHeartbeat now) ::
        (processRequests runAgent st).2.map CycleEvent.fileOp ++ [.sleepFor pollMs] ∧
    (loopCycle runAgent st now pollMs).2.findIdx isHeartbeatWriteEvt = 0 := by
  constructor
  · rfl
  · simp [loopCycle, List.findIdx_cons, isHeartbeatWriteEvt]

/-! ## Claim C10 -/

/-- Claim C10 confirmed: `killSession` on a resident session whose process has
already exited returns normally, sends no signal and leaves the registry
unchanged; only an unknown id raises `SessionNotFound`; and, by contrast,
`writeToSession` on the same exited session raises `SessionExited`. -/
theorem C10_killSession_exited (cfg : ProcessConfig) (reg : Registry) (id : String)
    (s : InternalSession) (signal : Option String) (groupKillOk : Bool) :
    (lookupSession reg id = some s → s.exited = true →
      killSession reg id signal groupKillOk = .ok [] ∧
      step cfg reg (.kill id signal) = reg) ∧
    (lookupSession reg id = none →
      killSession reg id signal groupKillOk = .error .sessionNotFound) ∧
    (lookupSession reg id = some s → s.exited = true →
      writeToSession reg id = .error .sessionExited) := by
  refine ⟨fun hl he => ⟨?_, rfl⟩, fun hl => ?_, fun hl he => ?_⟩
  · simp [killSession, hl, he]
  · simp [killSession, hl]
  · simp [writeToSession, hl, he]

/-- Witness for C10 at a concrete registry: a session that has exited. -/
theorem C10_killSession_exited_witness :
    killSession regExited "e" none true = .ok [] ∧
    writeToSession regExited "e" = .error .sessionExited ∧
    killSession regExited "missing" none true = .error .sessionNotFound := by
  have h := C10_killSession_exited cfgW regExited "e" exitedSess none true
  have h2 := C10_killSession_exited cfgW regExited "missing" exitedSess none true
  exact ⟨(h.1 (by decide) (by decide)).1, h.2.2 (by decide) (by decide),
    h2.2.1 (by decide)⟩

end DotClaw

namespace DotClaw

/-! ## Association-list lemmas for the session map -/

/-- Looking up a key that no existing entry carries, after appending a binding
for it, finds the appended binding. -/
theorem find_key_append_self (reg : Registry) (id : String) (s : InternalSession)
    (h : ∀ p ∈ reg, (p.1 == id) = false) :
    (reg ++ [(id, s)]).find? (fun p => p.1 == id) = some (id, s) := by
  induction reg with
  | nil => simp
  | cons hd tl ih =>
    have hhd := h hd (List.mem_cons_self hd tl)
    simp only [List.cons_append, List.find?_cons, hhd]
    exact ih (fun p hp => h p (List.mem_cons_of_mem hd hp))

/-- Replacing every binding of `id` in place and then looking `id` up finds the
replacement, provided some entry carried the key. -/
theorem find_key_replace_self (reg : Registry) (id : String) (s : InternalSession)
    (h : reg.any (fun p => p.1 == id) = true) :
    (reg.map (fun p => if p.1 == id then (id, s) else p)).find? (fun p => p.1 == id) =
      some (id, s) := by
  induction reg with
  | nil => simp at h
  | cons hd tl ih =>
    by_cases hhd : (hd.1 == id) = true
    · simp only [List.map_cons, if_pos hhd, List.find?_cons, beq_self_eq_true]
    · simp only [List.any_cons, Bool.or_eq_true] at h
      rcases h with h | h
      · exact absurd h hhd
      · simp only [List.map_cons, if_neg hhd, List.find?_cons,
          Bool.not_eq_true] at hhd ⊢
        rw [hhd]
        exact ih h

/-- `sessions.set(id, s)` followed by `sessions.get(id)` yields `s`. -/
theorem lookup_mapSet_self (reg : Registry) (id : String) (s : InternalSession) :
    lookupSession (mapSet reg id s) id = some s := by
  unfold mapSet
  split
  · next hany => rw [lookupSession, find_key_replace_self reg id s hany]; rfl
  · next hany =>
    have h : ∀ p ∈ reg, (p.1 == id) = false := by
      intro p hp
      by_contra hc
      exact hany (List.any_eq_true.mpr ⟨p, hp, by simpa using hc⟩)
    rw [lookupSession, find_key_append_self reg id s h]; rfl

/-- Every entry of `mapSet reg id s` is the new binding or an old entry. -/
theorem mem_mapSet (reg : Registry) (id : String) (s : InternalSession)
    (p : String × InternalSession) (h : p ∈ mapSet reg id s) :
    p = (id, s) ∨ p ∈ reg := by
  unfold mapSet at h
  split at h
  · obtain ⟨q, hq, hqe⟩ := List.mem_map.mp h
    by_cases hqk : (q.1 == id) = true
    · left; rw [← hqe, if_pos hqk]
    · right; rw [← hqe, if_neg hqk]; exact hq
  · rcases List.mem_append.mp h with h1 | h2
    · right; exact h1
    · left; simpa using h2

/-- `sessions.set` keeps the size when the key is resident and grows it by one
otherwise. -/
theorem length_mapSet (reg : Registry) (id : String) (s : InternalSession) :
    (mapSet reg id s).length =
      if reg.any (fun p => p.1 == id) = true then reg.length else reg.length + 1 := by
  unfold mapSet
  split <;> simp_all

/-- A successful `sessions.get` exhibits a resident entry. -/
theorem lookup_some_mem (reg : Registry) (id : String) (s : InternalSession)
    (h : lookupSession reg id = some s) : (id, s) ∈ reg := by
  unfold lookupSession at h
  cases hf : reg.find? (fun p => p.1 == id) with
  | none => rw [hf] at h; simp at h
  | some q =>
    rw [hf] at h
    have hq2 : q.2 = s := by simpa using h
    have hm := List.mem_of_find?_eq_some hf
    have hp := List.find?_some hf
    have hid : q.1 = id := eq_of_beq (by simpa using hp)
    have hq : q = (id, s) := by
      rw [← hid, ← hq2]
    rwa [hq] at hm

/-- A successful `sessions.get` means the key test succeeds somewhere. -/
theorem lookup_some_any (reg : Registry) (id : String) (s : InternalSession)
    (h : lookupSession reg id = some s) :
    reg.any (fun p => p.1 == id) = true :=
  List.any_eq_true.mpr ⟨(id, s), lookup_some_mem reg id s h, by simp⟩

/-- `updateAt` never changes the number of resident sessions. -/
theorem length_updateAt (reg : Registry) (id : String)
    (f : InternalSession → InternalSession) :
    (updateAt reg id f).length = reg.length := by
  unfold updateAt
  cases hl : lookupSession reg id with
  | none => rfl
  | some s => rw [length_mapSet, if_pos (lookup_some_any reg id s hl)]

/-- Every entry after `updateAt` is the updated binding or an old entry. -/
theorem mem_updateAt (reg : Registry) (id : String)
    (f : InternalSession → InternalSession) (p : String × InternalSession)
    (h : p ∈ updateAt reg id f) :
    (∃ s0, lookupSession reg id = some s0 ∧ p = (id, f s0)) ∨ p ∈ reg := by
  unfold updateAt at h
  cases hl : lookupSession reg id with
  | none => rw [hl] at h; right; exact h
  | some s0 =>
    rw [hl] at h
    rcases mem_mapSet _ _ _ _ h with h1 | h2
    · left; exact ⟨s0, rfl, h1⟩
    · right; exact h2

/-- Deleting a resident key from a map with duplicate-free keys shrinks it by
exactly one entry. -/
theorem length_mapDelete_of_lookup (reg : Registry) (id : String) (s : InternalSession)
    (hnd : (reg.map Prod.fst).Nodup) (h : lookupSession reg id = some s) :
    (mapDelete reg id).length + 1 = reg.length := by
  induction reg with
  | nil => simp [lookupSession] at h
  | cons hd tl ih =>
    rw [List.map_cons, List.nodup_cons] at hnd
    by_cases hk : (hd.1 == id) = true
    · have hkeep : ∀ p ∈ tl, (!(p.1 == id)) = true := by
        intro p hp
        have hne : p.1 ≠ id := by
          intro he
          exact hnd.1 (by
            rw [← eq_of_beq hk] at he
            rw [← he]
            exact List.mem_map_of_mem Prod.fst hp)
        simp [hne]
      simp only [mapDelete, List.filter_cons, hk, Bool.not_true, List.length_cons]
      rw [List.filter_eq_self.mpr hkeep]
      simp
    · rw [Bool.not_eq_true] at hk
      have hlt : lookupSession tl id = some s := by
        unfold lookupSession at h ⊢
        rw [List.find?_cons] at h
        rwa [hk] at h
      have hrec := ih hnd.2 hlt
      simp only [mapDelete] at hrec ⊢
      rw [List.filter_cons]
      simp only [hk, Bool.not_false, if_pos trivial, List.length_cons]
      omega

end DotClaw

namespace DotClaw

/-! ## Claim C6 -/

/-- Claim C6 confirmed: `startProcess` raises `CapacityExceeded` exactly when the
resident-session count is at least `maxSessions`, leaving the registry
unchanged; below the cap it succeeds; a successful `removeSession` on a
resident session shrinks the count by exactly one, and a subsequent
`startProcess` that is then below the maximum succeeds. -/
theorem C6_capacity_enforcement
    (cfg : ProcessConfig) (reg : Registry)
    (idNew : String) (cmd : JSStr) (pid now : Nat) (cwdO : Option JSStr) (tmO : Option Nat)
    (idOld : String) (s : InternalSession)
    (idNew2 : String) (cmd2 : JSStr) (pid2 now2 : Nat) (cwdO2 : Option JSStr)
    (tmO2 : Option Nat) :
    (startProcess cfg reg idNew cmd pid now cwdO tmO = .error .capacityExceeded ↔
      cfg.maxSessions ≤ reg.length) ∧
    (cfg.maxSessions ≤ reg.length →
      step cfg reg (.start idNew cmd pid now cwdO tmO) = reg) ∧
    (reg.length < cfg.maxSessions →
      startProcess cfg reg idNew cmd pid now cwdO tmO =
        .ok (mapSet reg idNew (newSession cfg idNew cmd pid now cwdO tmO), idNew, pid)) ∧
    ((reg.map Prod.fst).Nodup → lookupSession reg idOld = some s →
      removeSession reg idOld = .ok (mapDelete reg idOld) ∧
      (mapDelete reg idOld).length + 1 = reg.length ∧
      ((mapDelete reg idOld).length < cfg.maxSessions →
        startProcess cfg (mapDelete reg idOld) idNew2 cmd2 pid2 now2 cwdO2 tmO2 =
          .ok (mapSet (mapDelete reg idOld) idNew2
            (newSession cfg idNew2 cmd2 pid2 now2 cwdO2 tmO2), idNew2, pid2))) := by
  refine ⟨⟨?_, ?_⟩, ?_, ?_, fun hnd hl => ⟨?_, ?_, ?_⟩⟩
  · intro h
    by_contra hlt
    rw [Nat.not_le] at hlt
    unfold startProcess at h
    rw [if_neg (Nat.not_le.mpr hlt)] at h
    exact Except.noConfusion h
  · intro h
    unfold startProcess
    rw [if_pos h]
  · intro h
    simp [step, startProcess, h]
  · intro h
    unfold startProcess
    rw [if_neg (Nat.not_le.mpr h)]
  · simp [removeSession, hl]
  · exact length_mapDelete_of_lookup reg idOld s hnd hl
  · intro h
    unfold startProcess
    rw [if_neg (Nat.not_le.mpr h)]

/-- Witness for C6: the spec's concrete scenario with `maxSessions = 2` — two
resident starts, a third raises `CapacityExceeded`, removing one frees a slot
and the next start succeeds. -/
theorem C6_capacity_enforcement_witness :
    startProcess cfgTwo regAB "c" (jsOf "sleep 30") 3 0 none none =
      .error .capacityExceeded ∧
    removeSession regAB "a" = .ok (mapDelete regAB "a") ∧
    (mapDelete regAB "a").length + 1 = regAB.length ∧
    startProcess cfgTwo (mapDelete regAB "a") "c" (jsOf "sleep 30") 3 0 none none =
      .ok (mapSet (mapDelete regAB "a") "c"
        (newSession cfgTwo "c" (jsOf "sleep 30") 3 0 none none), "c", 3) := by
  have h := C6_capacity_enforcement cfgTwo regAB "c" (jsOf "sleep 30") 3 0 none none
    "a" sessA "c" (jsOf "sleep 30") 3 0 none none
  have h4 := h.2.2.2 (by decide) (by decide)
  exact ⟨h.1.mpr (by decide), h4.1, h4.2.1, h4.2.2 (by decide)⟩

/-! ## Claim C7 -/

/-- Claim C7 confirmed: on a resident session whose process has exited, two
consecutive polls return first all buffered output past the previous cursor,
then the empty string; both report `exited = true` with the same exit code; and
the stored cursor equals the buffer length after each call. -/
theorem C7_poll_twice_after_exit (reg : Registry) (id : String) (s : InternalSession)
    (hl : lookupSession reg id = some s) (he : s.exited = true) :
    pollSession reg id =
      .ok (⟨s.stdout.drop s.pollCursor, true, s.exitCode⟩,
        mapSet reg id { s with pollCursor := s.stdout.length }) ∧
    pollSession (mapSet reg id { s with pollCursor := s.stdout.length }) id =
      .ok (⟨[], true, s.exitCode⟩,
        mapSet (mapSet reg id { s with pollCursor := s.stdout.length }) id
          { s with pollCursor := s.stdout.length }) ∧
    lookupSession (mapSet reg id { s with pollCursor := s.stdout.length }) id =
      some { s with pollCursor := s.stdout.length } := by
  refine ⟨by simp [pollSession, hl, he], ?_, lookup_mapSet_self reg id _⟩
  have hlk := lookup_mapSet_self reg id { s with pollCursor := s.stdout.length }
  rw [he] at hlk
  simp [pollSession, hlk, he, List.drop_length]

/-- Witness for C7 at a concrete exited session with buffered output `"hi"`. -/
theorem C7_poll_twice_after_exit_witness :
    pollSession regPoll "p" =
      .ok (⟨polledSess.stdout.drop polledSess.pollCursor, true, polledSess.exitCode⟩,
        mapSet regPoll "p" { polledSess with pollCursor := polledSess.stdout.length }) ∧
    pollSession (mapSet regPoll "p" { polledSess with pollCursor := polledSess.stdout.length })
        "p" =
      .ok (⟨[], true, polledSess.exitCode⟩,
        mapSet (mapSet regPoll "p" { polledSess with pollCursor := polledSess.stdout.length })
          "p" { polledSess with pollCursor := polledSess.stdout.length }) ∧
    lookupSession (mapSet regPoll "p"
        { polledSess with pollCursor := polledSess.stdout.length }) "p" =
      some { polledSess with pollCursor := polledSess.stdout.length } :=
  C7_poll_twice_after_exit regPoll "p" polledSess (by decide) (by decide)

end DotClaw

namespace DotClaw

/-! ## Byte-length and tail lemmas -/

/-- Byte length distributes over concatenation. -/
theorem byteLength_append (a b : JSStr) :
    byteLength (a ++ b) = byteLength a + byteLength b := by
  simp [byteLength]

/-- The byte length of an all-single-byte string is its code-unit length. -/
theorem byteLength_ascii (l : JSStr) (h : ∀ c ∈ l, byteWidth c = 1) :
    byteLength l = l.length := by
  induction l with
  | nil => rfl
  | cons a t ih =>
    have ha := h a (List.mem_cons_self a t)
    have ht := ih (fun c hc => h c (List.mem_cons_of_mem a hc))
    simp only [byteLength, List.map_cons, List.sum_cons, List.length_cons] at ht ⊢
    omega

/-- Byte length of an all-single-byte prefix. -/
theorem byteLength_take_ascii (l : JSStr) (n : Nat) (h : ∀ c ∈ l, byteWidth c = 1) :
    byteLength (l.take n) = min n l.length := by
  rw [byteLength_ascii (l.take n) (fun c hc => h c (List.take_subset n l hc)),
    List.length_take]

/-- `updateTail` leaves the output buffer untouched. -/
theorem updateTail_stdout (s : InternalSession) : (updateTail s).stdout = s.stdout := by
  unfold updateTail
  split <;> rfl

/-- `updateTail` leaves the truncated flag untouched. -/
theorem updateTail_truncated (s : InternalSession) :
    (updateTail s).truncated = s.truncated := by
  unfold updateTail
  split <;> rfl

/-- `updateTail` leaves the poll cursor untouched. -/
theorem updateTail_pollCursor (s : InternalSession) :
    (updateTail s).pollCursor = s.pollCursor := by
  unfold updateTail
  split <;> rfl

/-- The tail view never exceeds the fixed tail window. -/
theorem updateTail_tail_le (s : InternalSession) :
    (updateTail s).tail.length ≤ TAIL_LENGTH := by
  unfold updateTail
  split
  · next h => simpa using h
  · next h =>
    simp only [List.length_drop]
    omega

/-! ## `append` structure lemmas -/

/-- After truncation, `append` discards every chunk. -/
theorem append_of_truncated (cfg : ProcessConfig) (s : InternalSession) (c : JSStr)
    (h : s.truncated = true) : append cfg s c = s := by
  simp [append, h]

/-- An untruncated `append` always goes through `updateTail`. -/
theorem append_untruncated_eq_updateTail (cfg : ProcessConfig) (s : InternalSession)
    (c : JSStr) (h : s.truncated = false) : ∃ r, append cfg s c = updateTail r := by
  unfold append
  rw [h]
  simp only [Bool.false_eq_true, if_false]
  by_cases h2 : cfg.maxOutputBytes < byteLength s.stdout + byteLength c
  · rw [if_pos h2]
    exact ⟨_, rfl⟩
  · rw [if_neg h2]
    exact ⟨_, rfl⟩

/-- A chunk that keeps the cumulative byte size within the cap is appended in
full and the session stays untruncated. -/
theorem append_full_spec (cfg : ProcessConfig) (s : InternalSession) (c : JSStr)
    (h : s.truncated = false)
    (hle : byteLength s.stdout + byteLength c ≤ cfg.maxOutputBytes) :
    (append cfg s c).stdout = s.stdout ++ c ∧
    (append cfg s c).truncated = false ∧
    (append cfg s c).pollCursor = s.pollCursor := by
  have hnl : ¬ cfg.maxOutputBytes < byteLength s.stdout + byteLength c := Nat.not_lt.mpr hle
  refine ⟨?_, ?_, ?_⟩ <;>
    simp [append, h, hnl, updateTail_stdout, updateTail_truncated, updateTail_pollCursor]

/-- The first chunk that would exceed the cap is cut to the first
`maxOutputBytes - currentBytes` CODE UNITS (a byte count used as a unit count),
the truncated flag is set, and the truncation marker is appended. -/
theorem append_overflow_spec (cfg : ProcessConfig) (s : InternalSession) (c : JSStr)
    (h : s.truncated = false)
    (hgt : cfg.maxOutputBytes < byteLength s.stdout + byteLength c) :
    (append cfg s c).stdout =
      s.stdout ++ c.take (cfg.maxOutputBytes - byteLength s.stdout) ++ TRUNCATION_MARKER ∧
    (append cfg s c).truncated = true ∧
    (append cfg s c).pollCursor = s.pollCursor := by
  by_cases hr : 0 < cfg.maxOutputBytes - byteLength s.stdout
  · refine ⟨?_, ?_, ?_⟩ <;>
      simp [append, h, hgt, hr, updateTail_stdout, updateTail_truncated,
        updateTail_pollCursor, List.append_assoc]
  · have hr0 : cfg.maxOutputBytes - byteLength s.stdout = 0 := by omega
    refine ⟨?_, ?_, ?_⟩ <;>
      simp [append, h, hgt, hr, hr0, updateTail_stdout, updateTail_truncated,
        updateTail_pollCursor]

/-- For an all-single-byte chunk, the overflow truncation retains exactly the
cap: the buffer ends at `maxOutputBytes` bytes plus one marker. -/
theorem append_overflow_ascii_fit (cfg : ProcessConfig) (s : InternalSession) (c : JSStr)
    (h : s.truncated = false)
    (hgt : cfg.maxOutputBytes < byteLength s.stdout + byteLength c)
    (hcur : byteLength s.stdout ≤ cfg.maxOutputBytes)
    (hascii : ∀ x ∈ c, byteWidth x = 1) :
    byteLength (append cfg s c).stdout =
      cfg.maxOutputBytes + byteLength TRUNCATION_MARKER := by
  obtain ⟨hst, _, _⟩ := append_overflow_spec cfg s c h hgt
  rw [hst, byteLength_append, byteLength_append, byteLength_take_ascii _ _ hascii]
  have hclen : byteLength c = c.length := byteLength_ascii c hascii
  have hmin : min (cfg.maxOutputBytes - byteLength s.stdout) c.length =
      cfg.maxOutputBytes - byteLength s.stdout := by omega
  rw [hmin]
  omega

/-- The tail-window bound is preserved by every `append`. -/
theorem append_tail_le (cfg : ProcessConfig) (s : InternalSession) (c : JSStr)
    (ht : s.tail.length ≤ TAIL_LENGTH) :
    (append cfg s c).tail.length ≤ TAIL_LENGTH := by
  by_cases h : s.truncated = true
  · rw [append_of_truncated cfg s c h]
    exact ht
  · rw [Bool.not_eq_true] at h
    obtain ⟨r, hr⟩ := append_untruncated_eq_updateTail cfg s c h
    rw [hr]
    exact updateTail_tail_le r

/-- Once truncated, a whole sequence of further chunks is discarded. -/
theorem deliverChunks_of_truncated (cfg : ProcessConfig) (s : InternalSession)
    (chunks : List JSStr) (h : s.truncated = true) :
    deliverChunks cfg s chunks = s := by
  induction chunks with
  | nil => rfl
  | cons c cs ih =>
    unfold deliverChunks at ih ⊢
    rw [List.foldl_cons, append_of_truncated cfg s c h]
    exact ih

end DotClaw

namespace DotClaw

/-! ## Claim C3 -/

/-- Claim C3, as stated, is false on a non-ASCII chunk: with a 4-byte cap, a
chunk of three 2-byte code units (6 bytes) triggers truncation, but the
retained output does NOT fit the cap exactly — `remaining` is a byte count that
the source uses as a code-unit count in `text.slice(0, remaining)`, so all
three units (6 bytes) are retained and the buffer ends at 25 bytes instead of
the claimed 4 + 19 = 23. -/
theorem C3_counterexample :
    (append cfgC3 freshSess chunkC3).truncated = true ∧
    byteLength (append cfgC3 freshSess chunkC3).stdout = 25 ∧
    cfgC3.maxOutputBytes + byteLength TRUNCATION_MARKER = 23 ∧
    byteLength (append cfgC3 freshSess chunkC3).stdout ≠
      cfgC3.maxOutputBytes + byteLength TRUNCATION_MARKER := by
  refine ⟨by decide, by decide, by decide, by decide⟩

/-- Claim C3 amended: chunks are appended in full exactly while the cumulative
byte size stays within the cap; the first chunk that would exceed the cap is
cut to its first `maxOutputBytes - currentBytes` code units (so the retained
output fits the cap exactly when the chunk consists of single-byte characters,
but may exceed it on multi-byte characters), the truncated flag is set and the
truncation marker is appended exactly once at that flip; once truncated, every
subsequent chunk is discarded; and the tail view never exceeds the fixed
500-unit window. -/
theorem C3_amended_output_bounding (cfg : ProcessConfig) (s : InternalSession)
    (c : JSStr) (chunks : List JSStr) :
    (s.truncated = false → byteLength s.stdout + byteLength c ≤ cfg.maxOutputBytes →
      (append cfg s c).stdout = s.stdout ++ c ∧ (append cfg s c).truncated = false) ∧
    (s.truncated = false → cfg.maxOutputBytes < byteLength s.stdout + byteLength c →
      (append cfg s c).stdout =
        s.stdout ++ c.take (cfg.maxOutputBytes - byteLength s.stdout) ++
          TRUNCATION_MARKER ∧
      (append cfg s c).truncated = true) ∧
    (s.truncated = false → cfg.maxOutputBytes < byteLength s.stdout + byteLength c →
      byteLength s.stdout ≤ cfg.maxOutputBytes → (∀ x ∈ c, byteWidth x = 1) →
      byteLength (append cfg s c).stdout =
        cfg.maxOutputBytes + byteLength TRUNCATION_MARKER) ∧
    (s.truncated = true → deliverChunks cfg s chunks = s) ∧
    (s.tail.length ≤ TAIL_LENGTH → (append cfg s c).tail.length ≤ TAIL_LENGTH) := by
  refine ⟨fun h hle => ?_, fun h hgt => ?_, fun h hgt hcur hascii => ?_, fun h => ?_,
    fun ht => ?_⟩
  · obtain ⟨h1, h2, _⟩ := append_full_spec cfg s c h hle
    exact ⟨h1, h2⟩
  · obtain ⟨h1, h2, _⟩ := append_overflow_spec cfg s c h hgt
    exact ⟨h1, h2⟩
  · exact append_overflow_ascii_fit cfg s c h hgt hcur hascii
  · exact deliverChunks_of_truncated cfg s chunks h
  · exact append_tail_le cfg s c ht

/-- Witness for C3 at a 4-byte cap: an in-cap chunk is appended in full; an
oversized ASCII chunk is truncated with the marker and lands exactly at
cap-plus-marker bytes; further chunks are discarded; the tail stays within the
window. -/
theorem C3_amended_output_bounding_witness :
    ((append cfgC3 freshSess (jsOf "hi")).stdout = freshSess.stdout ++ jsOf "hi" ∧
      (append cfgC3 freshSess (jsOf "hi")).truncated = false) ∧
    ((append cfgC3 freshSess (jsOf "aaaaaa")).stdout =
        freshSess.stdout ++
          (jsOf "aaaaaa").take (cfgC3.maxOutputBytes - byteLength freshSess.stdout) ++
          TRUNCATION_MARKER ∧
      (append cfgC3 freshSess (jsOf "aaaaaa")).truncated = true) ∧
    byteLength (append cfgC3 freshSess (jsOf "aaaaaa")).stdout =
      cfgC3.maxOutputBytes + byteLength TRUNCATION_MARKER ∧
    deliverChunks cfgC3 truncSess [jsOf "more"] = truncSess ∧
    (append cfgC3 freshSess (jsOf "hi")).tail.length ≤ TAIL_LENGTH := by
  have h1 := C3_amended_output_bounding cfgC3 freshSess (jsOf "hi") []
  have h2 := C3_amended_output_bounding cfgC3 freshSess (jsOf "aaaaaa") []
  have h3 := C3_amended_output_bounding cfgC3 truncSess (jsOf "x") [jsOf "more"]
  exact ⟨h1.1 (by decide) (by decide),
    h2.2.1 (by decide) (by decide),
    h2.2.2.1 (by decide) (by decide) (by decide) (by decide),
    h3.2.2.2.1 (by decide),
    h1.2.2.2.2 (by decide)⟩

end DotClaw

namespace DotClaw

/-! ## Callback effect lemmas -/

/-- `append` never moves the poll cursor. -/
theorem append_pollCursor (cfg : ProcessConfig) (s : InternalSession) (c : JSStr) :
    (append cfg s c).pollCursor = s.pollCursor := by
  by_cases h : s.truncated = true
  · rw [append_of_truncated cfg s c h]
  · rw [Bool.not_eq_true] at h
    by_cases h2 : cfg.maxOutputBytes < byteLength s.stdout + byteLength c
    · exact (append_overflow_spec cfg s c h h2).2.2
    · exact (append_full_spec cfg s c h (Nat.not_lt.mp h2)).2.2

/-- `append` only ever extends the buffer. -/
theorem append_stdout_ext (cfg : ProcessConfig) (s : InternalSession) (c : JSStr) :
    ∃ t, (append cfg s c).stdout = s.stdout ++ t := by
  by_cases h : s.truncated = true
  · exact ⟨[], by rw [append_of_truncated cfg s c h, List.append_nil]⟩
  · rw [Bool.not_eq_true] at h
    by_cases h2 : cfg.maxOutputBytes < byteLength s.stdout + byteLength c
    · exact ⟨_, ((append_overflow_spec cfg s c h h2).1).trans (List.append_assoc _ _ _)⟩
    · exact ⟨c, (append_full_spec cfg s c h (Nat.not_lt.mp h2)).1⟩

/-- The spawn-error callback only ever extends the buffer and keeps the cursor. -/
theorem errorEvt_ext (s : InternalSession) (msg : JSStr) :
    (∃ t, (errorEvt s msg).stdout = s.stdout ++ t) ∧
    (errorEvt s msg).pollCursor = s.pollCursor := by
  unfold errorEvt
  refine ⟨⟨jsOf "\n[PROCESS ERROR: " ++ msg ++ jsOf "]", ?_⟩, updateTail_pollCursor _⟩
  rw [updateTail_stdout]
  simp [List.append_assoc]

/-- The timeout callback only ever extends the buffer and keeps the cursor. -/
theorem timeoutEvt_ext (s : InternalSession) :
    (∃ t, (timeoutEvt s).stdout = s.stdout ++ t) ∧
    (timeoutEvt s).pollCursor = s.pollCursor := by
  unfold timeoutEvt
  split
  · exact ⟨⟨[], (List.append_nil _).symm⟩, rfl⟩
  · exact ⟨⟨_, updateTail_stdout _⟩, updateTail_pollCursor _⟩

/-! ## Step invariants -/

/-- The cursor invariant `pollCursor ≤ |stdout|` is preserved by every event. -/
theorem inv1_step (cfg : ProcessConfig) (reg : Registry) (op : RegOp)
    (h : ∀ p ∈ reg, p.2.pollCursor ≤ p.2.stdout.length) :
    ∀ p ∈ step cfg reg op, p.2.pollCursor ≤ p.2.stdout.length := by
  intro p hp
  cases op with
  | start id cmd pid now cwdO tmO =>
    by_cases hcap : cfg.maxSessions ≤ reg.length
    · have hs : step cfg reg (.start id cmd pid now cwdO tmO) = reg := by
        simp [step, startProcess, hcap]
      rw [hs] at hp
      exact h p hp
    · have hs : step cfg reg (.start id cmd pid now cwdO tmO) =
          mapSet reg id (newSession cfg id cmd pid now cwdO tmO) := by
        simp [step, startProcess, hcap]
      rw [hs] at hp
      rcases mem_mapSet _ _ _ _ hp with h1 | h2
      · rw [h1]
        simp [newSession]
      · exact h p h2
  | chunk id data =>
    simp only [step] at hp
    rcases mem_updateAt _ _ _ _ hp with ⟨s0, hl0, hpe⟩ | hmem
    · have hs0 : s0.pollCursor ≤ s0.stdout.length :=
        h (id, s0) (lookup_some_mem reg id s0 hl0)
      obtain ⟨t, hext⟩ := append_stdout_ext cfg s0 data
      rw [hpe]
      simp only [append_pollCursor, hext, List.length_append]
      omega
    · exact h p hmem
  | closeE id code sig =>
    simp only [step] at hp
    rcases mem_updateAt _ _ _ _ hp with ⟨s0, hl0, hpe⟩ | hmem
    · have hs0 := h (id, s0) (lookup_some_mem reg id s0 hl0)
      rw [hpe]
      exact hs0
    · exact h p hmem
  | errorE id msg =>
    simp only [step] at hp
    rcases mem_updateAt _ _ _ _ hp with ⟨s0, hl0, hpe⟩ | hmem
    · have hs0 : s0.pollCursor ≤ s0.stdout.length :=
        h (id, s0) (lookup_some_mem reg id s0 hl0)
      obtain ⟨⟨t, hext⟩, hcur⟩ := errorEvt_ext s0 msg
      rw [hpe]
      simp only [hcur, hext, List.length_append]
      omega
    · exact h p hmem
  | timeoutE id =>
    simp only [step] at hp
    rcases mem_updateAt _ _ _ _ hp with ⟨s0, hl0, hpe⟩ | hmem
    · have hs0 : s0.pollCursor ≤ s0.stdout.length :=
        h (id, s0) (lookup_some_mem reg id s0 hl0)
      obtain ⟨⟨t, hext⟩, hcur⟩ := timeoutEvt_ext s0
      rw [hpe]
      simp only [hcur, hext, List.length_append]
      omega
    · exact h p hmem
  | poll id =>
    cases hl : lookupSession reg id with
    | none =>
      have hs : step cfg reg (.poll id) = reg := by
        simp [step, pollSession, hl]
      rw [hs] at hp
      exact h p hp
    | some s0 =>
      have hs : step cfg reg (.poll id) =
          mapSet reg id { s0 with pollCursor := s0.stdout.length } := by
        simp [step, pollSession, hl]
      rw [hs] at hp
      rcases mem_mapSet _ _ _ _ hp with h1 | h2
      · rw [h1]
      · exact h p h2
  | write id => exact h p hp
  | kill id sig => exact h p hp
  | remove id =>
    cases hl : lookupSession reg id with
    | none =>
      have hs : step cfg reg (.remove id) = reg := by
        simp [step, removeSession, hl]
      rw [hs] at hp
      exact h p hp
    | some s0 =>
      have hs : step cfg reg (.remove id) = mapDelete reg id := by
        simp [step, removeSession, hl]
      rw [hs] at hp
      exact h p (List.mem_of_mem_filter hp)

/-- The resident-session count never exceeds the configured capacity. -/
theorem length_step_le (cfg : ProcessConfig) (reg : Registry) (op : RegOp)
    (h : reg.length ≤ cfg.maxSessions) :
    (step cfg reg op).length ≤ cfg.maxSessions := by
  cases op with
  | start id cmd pid now cwdO tmO =>
    by_cases hcap : cfg.maxSessions ≤ reg.length
    · simpa [step, startProcess, hcap] using h
    · have hs : step cfg reg (.start id cmd pid now cwdO tmO) =
          mapSet reg id (newSession cfg id cmd pid now cwdO tmO) := by
        simp [step, startProcess, hcap]
      rw [hs, length_mapSet]
      split
      · exact h
      · omega
  | chunk id data => simpa [step, length_updateAt] using h
  | closeE id code sig => simpa [step, length_updateAt] using h
  | errorE id msg => simpa [step, length_updateAt] using h
  | timeoutE id => simpa [step, length_updateAt] using h
  | poll id =>
    cases hl : lookupSession reg id with
    | none => simpa [step, pollSession, hl] using h
    | some s0 =>
      have hs : step cfg reg (.poll id) =
          mapSet reg id { s0 with pollCursor := s0.stdout.length } := by
        simp [step, pollSession, hl]
      rw [hs, length_mapSet, if_pos (lookup_some_any reg id s0 hl)]
      exact h
  | write id => exact h
  | kill id sig => exact h
  | remove id =>
    cases hl : lookupSession reg id with
    | none => simpa [step, removeSession, hl] using h
    | some s0 =>
      have hs : step cfg reg (.remove id) = mapDelete reg id := by
        simp [step, removeSession, hl]
      rw [hs]
      exact le_trans (List.length_filter_le _ _) h

end DotClaw

namespace DotClaw

/-- `append` preserves the byte-bound invariant for single-byte chunks:
an untruncated buffer stays within the cap, a truncated one within
cap-plus-marker. -/
theorem append_inv2 (cfg : ProcessConfig) (s : InternalSession) (c : JSStr)
    (hascii : ∀ x ∈ c, byteWidth x = 1)
    (h1 : s.truncated = false → byteLength s.stdout ≤ cfg.maxOutputBytes)
    (h2 : s.truncated = true →
      byteLength s.stdout ≤ cfg.maxOutputBytes + byteLength TRUNCATION_MARKER) :
    ((append cfg s c).truncated = false →
      byteLength (append cfg s c).stdout ≤ cfg.maxOutputBytes) ∧
    ((append cfg s c).truncated = true →
      byteLength (append cfg s c).stdout ≤
        cfg.maxOutputBytes + byteLength TRUNCATION_MARKER) := by
  by_cases h : s.truncated = true
  · rw [append_of_truncated cfg s c h]
    exact ⟨h1, h2⟩
  · rw [Bool.not_eq_true] at h
    by_cases hgt : cfg.maxOutputBytes < byteLength s.stdout + byteLength c
    · obtain ⟨hst, htr, _⟩ := append_overflow_spec cfg s c h hgt
      constructor
      · intro hf
        rw [htr] at hf
        cases hf
      · intro _
        rw [hst, byteLength_append, byteLength_append,
          byteLength_take_ascii _ _ hascii]
        have hcur := h1 h
        have hmin := Nat.min_le_left (cfg.maxOutputBytes - byteLength s.stdout) c.length
        omega
    · have hle := Nat.not_lt.mp hgt
      obtain ⟨hst, htr, _⟩ := append_full_spec cfg s c h hle
      constructor
      · intro _
        rw [hst, byteLength_append]
        exact hle
      · intro hf
        rw [htr] at hf
        cases hf

/-- The byte-bound invariant is preserved by every safe event (single-byte
chunks, no spawn-error or timeout marker). -/
theorem inv2_step (cfg : ProcessConfig) (reg : Registry) (op : RegOp)
    (hsafe : SafeOp op)
    (h : ∀ p ∈ reg,
      (p.2.truncated = false → byteLength p.2.stdout ≤ cfg.maxOutputBytes) ∧
      (p.2.truncated = true →
        byteLength p.2.stdout ≤ cfg.maxOutputBytes + byteLength TRUNCATION_MARKER)) :
    ∀ p ∈ step cfg reg op,
      (p.2.truncated = false → byteLength p.2.stdout ≤ cfg.maxOutputBytes) ∧
      (p.2.truncated = true →
        byteLength p.2.stdout ≤ cfg.maxOutputBytes + byteLength TRUNCATION_MARKER) := by
  intro p hp
  cases op with
  | start id cmd pid now cwdO tmO =>
    by_cases hcap : cfg.maxSessions ≤ reg.length
    · have hs : step cfg reg (.start id cmd pid now cwdO tmO) = reg := by
        simp [step, startProcess, hcap]
      rw [hs] at hp
      exact h p hp
    · have hs : step cfg reg (.start id cmd pid now cwdO tmO) =
          mapSet reg id (newSession cfg id cmd pid now cwdO tmO) := by
        simp [step, startProcess, hcap]
      rw [hs] at hp
      rcases mem_mapSet _ _ _ _ hp with h1 | h2
      · rw [h1]
        constructor
        · intro _
          simp [newSession, byteLength]
        · intro hf
          simp [newSession] at hf
      · exact h p h2
  | chunk id data =>
    simp only [step] at hp
    rcases mem_updateAt _ _ _ _ hp with ⟨s0, hl0, hpe⟩ | hmem
    · have hs0 :
          (s0.truncated = false → byteLength s0.stdout ≤ cfg.maxOutputBytes) ∧
          (s0.truncated = true →
            byteLength s0.stdout ≤ cfg.maxOutputBytes + byteLength TRUNCATION_MARKER) :=
        h (id, s0) (lookup_some_mem reg id s0 hl0)
      have hascii : ∀ x ∈ data, byteWidth x = 1 := hsafe
      rw [hpe]
      exact append_inv2 cfg s0 data hascii hs0.1 hs0.2
    · exact h p hmem
  | closeE id code sig =>
    simp only [step] at hp
    rcases mem_updateAt _ _ _ _ hp with ⟨s0, hl0, hpe⟩ | hmem
    · have hs0 :
          (s0.truncated = false → byteLength s0.stdout ≤ cfg.maxOutputBytes) ∧
          (s0.truncated = true →
            byteLength s0.stdout ≤ cfg.maxOutputBytes + byteLength TRUNCATION_MARKER) :=
        h (id, s0) (lookup_some_mem reg id s0 hl0)
      rw [hpe]
      exact hs0
    · exact h p hmem
  | errorE id msg => exact (hsafe : False).elim
  | timeoutE id => exact (hsafe : False).elim
  | poll id =>
    cases hl : lookupSession reg id with
    | none =>
      have hs : step cfg reg (.poll id) = reg := by
        simp [step, pollSession, hl]
      rw [hs] at hp
      exact h p hp
    | some s0 =>
      have hs : step cfg reg (.poll id) =
          mapSet reg id { s0 with pollCursor := s0.stdout.length } := by
        simp [step, pollSession, hl]
      rw [hs] at hp
      rcases mem_mapSet _ _ _ _ hp with h1 | h2
      · have hs0 :
            (s0.truncated = false → byteLength s0.stdout ≤ cfg.maxOutputBytes) ∧
            (s0.truncated = true →
              byteLength s0.stdout ≤ cfg.maxOutputBytes + byteLength TRUNCATION_MARKER) :=
          h (id, s0) (lookup_some_mem reg id s0 hl)
        rw [h1]
        exact hs0
      · exact h p h2
  | write id => exact h p hp
  | kill id sig => exact h p hp
  | remove id =>
    cases hl : lookupSession reg id with
    | none =>
      have hs : step cfg reg (.remove id) = reg := by
        simp [step, removeSession, hl]
      rw [hs] at hp
      exact h p hp
    | some s0 =>
      have hs : step cfg reg (.remove id) = mapDelete reg id := by
        simp [step, removeSession, hl]
      rw [hs] at hp
      exact h p (List.mem_of_mem_filter hp)

/-- Fold a step-preserved property over an event sequence. -/
theorem runOps_inv (cfg : ProcessConfig) (P : Registry → Prop) (Q : RegOp → Prop)
    (hstep : ∀ reg op, Q op → P reg → P (step cfg reg op)) :
    ∀ (ops : List RegOp) (reg : Registry), (∀ op ∈ ops, Q op) → P reg →
      P (ops.foldl (step cfg) reg) := by
  intro ops
  induction ops with
  | nil => intro reg _ h; exact h
  | cons o os ih =>
    intro reg hq h
    rw [List.foldl_cons]
    exact ih (step cfg reg o) (fun op hop => hq op (List.mem_cons_of_mem o hop))
      (hstep reg o (hq o (List.mem_cons_self o os)) h)

/-! ## Claim C5 -/

/-- Claim C5, as stated, is false: the timeout timer callback appends its marker
without regard to the byte cap.  With a 4-byte cap, an oversized chunk followed
by the timer firing leaves a 43-byte buffer, exceeding the claimed bound of
4 + 19 = 23 bytes (cap plus one truncation marker). -/
theorem C5_counterexample :
    stdoutBytesAt (runOps cfgC5 opsC5) "s" = some 43 ∧
    cfgC5.maxOutputBytes + byteLength TRUNCATION_MARKER = 23 ∧ (23 : Nat) < 43 := by
  refine ⟨by decide, by decide, by decide⟩

/-- Claim C5 amended: after any event sequence from daemon start, every resident
session satisfies `pollCursor ≤ |stdout|`, and the resident-session count never
exceeds `maxSessions`; the byte bound `|stdout| in bytes ≤ maxOutputBytes plus
one truncation marker` additionally holds whenever the sequence contains only
single-byte output chunks and no spawn-error or timeout callback (those two
callbacks append markers that bypass the cap). -/
theorem C5_amended_invariants (cfg : ProcessConfig) (ops : List RegOp) :
    (∀ p ∈ runOps cfg ops, p.2.pollCursor ≤ p.2.stdout.length) ∧
    (runOps cfg ops).length ≤ cfg.maxSessions ∧
    ((∀ op ∈ ops, SafeOp op) →
      ∀ p ∈ runOps cfg ops,
        byteLength p.2.stdout ≤ cfg.maxOutputBytes + byteLength TRUNCATION_MARKER) := by
  refine ⟨?_, ?_, fun hsafe => ?_⟩
  · exact runOps_inv cfg (fun reg => ∀ p ∈ reg, p.2.pollCursor ≤ p.2.stdout.length)
      (fun _ => True) (fun reg op _ h => inv1_step cfg reg op h) ops []
      (fun _ _ => trivial) (by intro p hp; cases hp)
  · exact runOps_inv cfg (fun reg => reg.length ≤ cfg.maxSessions) (fun _ => True)
      (fun reg op _ h => length_step_le cfg reg op h) ops [] (fun _ _ => trivial)
      (Nat.zero_le _)
  · have h2 := runOps_inv cfg
      (fun reg => ∀ p ∈ reg,
        (p.2.truncated = false → byteLength p.2.stdout ≤ cfg.maxOutputBytes) ∧
        (p.2.truncated = true →
          byteLength p.2.stdout ≤ cfg.maxOutputBytes + byteLength TRUNCATION_MARKER))
      SafeOp (fun reg op hq h => inv2_step cfg reg op hq h) ops [] hsafe
      (by intro p hp; cases hp)
    intro p hp
    have h3 := h2 p hp
    by_cases ht : p.2.truncated = true
    · exact h3.2 ht
    · rw [Bool.not_eq_true] at ht
      exact le_trans (h3.1 ht) (Nat.le_add_right _ _)

/-- Witness for C5 on a concrete safe sequence (start, ASCII chunk, poll): the
cursor, capacity and byte bounds all hold for the single resident session. -/
theorem C5_amended_invariants_witness :
    entrySafe.2.pollCursor ≤ entrySafe.2.stdout.length ∧
    (runOps cfgW opsSafe).length ≤ cfgW.maxSessions ∧
    byteLength entrySafe.2.stdout ≤ cfgW.maxOutputBytes + byteLength TRUNCATION_MARKER := by
  have h := C5_amended_invariants cfgW opsSafe
  exact ⟨h.1 entrySafe (by decide), h.2.1,
    h.2.2 (by decide) entrySafe (by decide)⟩

end DotClaw

namespace DotClaw

/-! ## Worker-loop lemmas -/

/-- `processOne` always issues exactly one response write, to the path named by
the request id, followed by the unlink of the request file. -/
theorem processOne_shape (runAgent : JValue → Except String JValue) (file : RequestFile) :
    (processOne runAgent file).2.2 =
      [.writeFile (respPath (processOne runAgent file).1) (processOne runAgent file).2.1,
       .unlink (reqPath file.1)] := by
  obtain ⟨stem, payload⟩ := file
  cases payload with
  | none => rfl
  | some p =>
    by_cases hv : isContainerInput (inputOf p) = true
    · cases hr : runAgent (inputOf p) with
      | ok out => simp [processOne, hv, hr]
      | error e => simp [processOne, hv, hr]
    · simp [processOne, hv]

/-- After `setResponse dir rid c`, the key `rid` is present. -/
theorem setResponse_any_self (dir : ResponseDir) (rid : String) (c : JValue) :
    (setResponse dir rid c).any (fun p => p.1 == rid) = true := by
  unfold setResponse
  split
  · next hany =>
    obtain ⟨p, hp, hpr⟩ := List.any_eq_true.mp hany
    apply List.any_eq_true.mpr
    exact ⟨(rid, c), List.mem_map.mpr ⟨p, hp, by simp [hpr]⟩, by simp⟩
  · apply List.any_eq_true.mpr
    exact ⟨(rid, c), List.mem_append.mpr (Or.inr (by simp)), by simp⟩

/-- `setResponse` preserves the presence of every existing key. -/
theorem setResponse_any_mono (dir : ResponseDir) (rid : String) (c : JValue) (k : String)
    (h : dir.any (fun p => p.1 == k) = true) :
    (setResponse dir rid c).any (fun p => p.1 == k) = true := by
  unfold setResponse
  split
  · obtain ⟨p, hp, hpk⟩ := List.any_eq_true.mp h
    apply List.any_eq_true.mpr
    by_cases hpr : (p.1 == rid) = true
    · refine ⟨(rid, c), List.mem_map.mpr ⟨p, hp, by simp [hpr]⟩, ?_⟩
      have h1 : p.1 = rid := eq_of_beq hpr
      have h2 : (rid == k) = true := by
        rw [← h1]
        exact hpk
      exact h2
    · exact ⟨p, List.mem_map.mpr ⟨p, hp, by simp [hpr]⟩, hpk⟩
  · simp only [List.any_append, Bool.or_eq_true]
    exact Or.inl h

end DotClaw

namespace DotClaw

/-- Folding response writes preserves the presence of every existing key. -/
theorem foldl_setResponse_mono (results : List (String × JValue × List FsOp)) :
    ∀ (acc : ResponseDir) (k : String), acc.any (fun p => p.1 == k) = true →
      (results.foldl (fun a r => setResponse a r.1 r.2.1) acc).any
        (fun p => p.1 == k) = true := by
  induction results with
  | nil => intro acc k h; exact h
  | cons x xs ih =>
    intro acc k h
    rw [List.foldl_cons]
    exact ih (setResponse acc x.1 x.2.1) k (setResponse_any_mono acc x.1 x.2.1 k h)

/-- After folding all response writes, every processed result's id is present. -/
theorem foldl_setResponse_present (results : List (String × JValue × List FsOp)) :
    ∀ (acc : ResponseDir) (r : String × JValue × List FsOp), r ∈ results →
      (results.foldl (fun a x => setResponse a x.1 x.2.1) acc).any
        (fun p => p.1 == r.1) = true := by
  induction results with
  | nil => intro acc r hr; cases hr
  | cons x xs ih =>
    intro acc r hr
    rw [List.foldl_cons]
    rcases List.mem_cons.mp hr with he | hm
    · subst he
      exact foldl_setResponse_mono xs (setResponse acc r.1 r.2.1) r.1
        (setResponse_any_self acc r.1 r.2.1)
    · exact ih (setResponse acc x.1 x.2.1) r hm

/-! ## Claim C4 -/

/-- Claim C4, as stated, is false: the worker loop's response write for a
processed request is a direct `writeFileSync` of the final response path — no
temporary file and no rename are involved. -/
theorem C4_counterexample :
    ((processOne (okRunAgent (.jstr "done")) ("r1", some sampleRequest)).2.2.any
      (isDirectWrite (respPath "r1")) = true) ∧
    ((processOne (okRunAgent (.jstr "done")) ("r1", some sampleRequest)).2.2.any
      (isRenameOnto (respPath "r1")) = false) := by
  refine ⟨by decide, by decide⟩

/-- Claim C4 amended: host-side `saveJson` writes (used for host state files)
follow the write-temporary-then-rename pattern, with a temporary name distinct
from the final path; but the sandbox worker loop's response writes (both
success and error responses) are direct writes of the final path, with the
request-file unlink following. -/
theorem C4_amended_write_discipline (dir base : String) (pid now : Nat) (data : JValue)
    (runAgent : JValue → Except String JValue) (file : RequestFile) :
    saveJson dir base pid now data =
      [.writeFile (saveJsonTempName dir base pid now) data,
       .rename (saveJsonTempName dir base pid now) (dir ++ "/" ++ base)] ∧
    saveJsonTempName dir base pid now ≠ dir ++ "/" ++ base ∧
    processOne runAgent file =
      ((processOne runAgent file).1, (processOne runAgent file).2.1,
       [.writeFile (respPath (processOne runAgent file).1) (processOne runAgent file).2.1,
        .unlink (reqPath file.1)]) := by
  refine ⟨rfl, ?_, ?_⟩
  · intro he
    have hlen := congrArg String.length he
    have e1 : "/.".length = 2 := rfl
    have e2 : ".".length = 1 := rfl
    have e3 : ".tmp".length = 4 := rfl
    have e4 : "/".length = 1 := rfl
    simp only [saveJsonTempName, String.length_append, e1, e2, e3, e4] at hlen
    omega
  · rw [← processOne_shape runAgent file]

/-- Witness for C4: a concrete `saveJson` write and a concrete processed request. -/
theorem C4_amended_write_discipline_witness :
    saveJson "/data" "sessions.json" 42 1000 (.jstr "x") =
      [.writeFile (saveJsonTempName "/data" "sessions.json" 42 1000) (.jstr "x"),
       .rename (saveJsonTempName "/data" "sessions.json" 42 1000)
         ("/data" ++ "/" ++ "sessions.json")] ∧
    saveJsonTempName "/data" "sessions.json" 42 1000 ≠ "/data" ++ "/" ++ "sessions.json" ∧
    processOne (okRunAgent (.jstr "done")) ("r1", some sampleRequest) =
      ((processOne (okRunAgent (.jstr "done")) ("r1", some sampleRequest)).1,
       (processOne (okRunAgent (.jstr "done")) ("r1", some sampleRequest)).2.1,
       [.writeFile (respPath (processOne (okRunAgent (.jstr "done")) ("r1", some sampleRequest)).1)
          (processOne (okRunAgent (.jstr "done")) ("r1", some sampleRequest)).2.1,
        .unlink (reqPath ("r1", some sampleRequest).1)]) :=
  C4_amended_write_discipline "/data" "sessions.json" 42 1000 (.jstr "x")
    (okRunAgent (.jstr "done")) ("r1", some sampleRequest)

/-! ## Claim C8 -/

/-- Claim C8 confirmed: for every request file the worker loop processes, it
writes exactly one response file named by the request id and then deletes the
request file; a payload that passes validation gets the agent-execution result,
a payload that fails validation or whose execution throws gets exactly one
structured error response; and the loop drains every pending file without
aborting, leaving a response recorded for each. -/
theorem C8_worker_round_trip (runAgent : JValue → Except String JValue)
    (file : RequestFile) (st : WorkerState) :
    ((processOne runAgent file).2.2 =
      [.writeFile (respPath (processOne runAgent file).1) (processOne runAgent file).2.1,
       .unlink (reqPath file.1)]) ∧
    (∀ payload out, file.2 = some payload → isContainerInput (inputOf payload) = true →
      runAgent (inputOf payload) = .ok out → (processOne runAgent file).2.1 = out) ∧
    (∀ payload, file.2 = some payload → isContainerInput (inputOf payload) = false →
      (processOne runAgent file).2.1 = errorResponse "Invalid agent request payload") ∧
    (∀ payload e, file.2 = some payload → isContainerInput (inputOf payload) = true →
      runAgent (inputOf payload) = .error e →
      (processOne runAgent file).2.1 = errorResponse e) ∧
    (file.2 = none → (processOne runAgent file).2.1 = errorResponse "Invalid JSON") ∧
    ((processRequests runAgent st).1.requests = []) ∧
    (∀ f ∈ st.requests,
      hasResponseFor (processRequests runAgent st).1.responses
        (processOne runAgent f).1 = true) := by
  obtain ⟨stem, f2⟩ := file
  refine ⟨processOne_shape runAgent (stem, f2), ?_, ?_, ?_, ?_, rfl, ?_⟩
  · intro payload out hpay hci hrun
    simp only at hpay
    subst hpay
    simp [processOne, hci, hrun]
  · intro payload hpay hci
    simp only at hpay
    subst hpay
    simp [processOne, hci]
  · intro payload e hpay hci hrun
    simp only at hpay
    subst hpay
    simp [processOne, hci, hrun]
  · intro hnone
    simp only at hnone
    subst hnone
    rfl
  · intro f hf
    unfold hasResponseFor processRequests
    exact foldl_setResponse_present _ _ _ (List.mem_map_of_mem _ hf)

/-- Witness for C8 on a concrete valid request: the response write targets the
request id, the result is the agent output, the queue is drained and the
response is recorded. -/
theorem C8_worker_round_trip_witness :
    (processOne (okRunAgent (.jstr "done")) ("r1", some sampleRequest)).2.2 =
      [.writeFile
          (respPath (processOne (okRunAgent (.jstr "done")) ("r1", some sampleRequest)).1)
          (processOne (okRunAgent (.jstr "done")) ("r1", some sampleRequest)).2.1,
       .unlink (reqPath "r1")] ∧
    (processOne (okRunAgent (.jstr "done")) ("r1", some sampleRequest)).2.1 = .jstr "done" ∧
    (processRequests (okRunAgent (.jstr "done")) ⟨[("r1", some sampleRequest)], []⟩).1.requests
      = [] ∧
    hasResponseFor
      (processRequests (okRunAgent (.jstr "done")) ⟨[("r1", some sampleRequest)], []⟩).1.responses
      (processOne (okRunAgent (.jstr "done")) ("r1", some sampleRequest)).1 = true := by
  have h := C8_worker_round_trip (okRunAgent (.jstr "done")) ("r1", some sampleRequest)
    ⟨[("r1", some sampleRequest)], []⟩
  exact ⟨h.1, h.2.1 sampleRequest (.jstr "done") rfl rfl rfl,
    h.2.2.2.2.2.1, h.2.2.2.2.2.2 ("r1", some sampleRequest) (by simp)⟩

end DotClaw
